import Mathlib

/-!
Verification of the inventory bookkeeping core of the `epicservice` repository.

The development shallowly embeds the data model (`src/database/models.py`) and
the three core services:

* `CartService.add_item`        (`src/services/cart.py`)   — claim upsert with department lock,
* `ExcelExporter.export_user_list` (`src/services/exporter.py`) — settlement of a collection session,
* `SmartImporter.run_import`    (`src/services/importer.py`) — spreadsheet import and catalog
  reconciliation, together with its header detection (`_detect_column`), row identifier
  extraction (`extract_sku`) and numeric normalization (`clean_float`).

Numeric cells (`Float` columns in the models) are embedded as rationals `ℚ`: the
operations the code performs on them (comparison, `min`, subtraction, one division)
are exact on the values appearing here.  Python strings are embedded as `List Char`
processing on Lean `String`s; `str.lower`/`str.strip` are modelled for the ASCII and
Cyrillic alphabets actually used by the data (a comment marks each such scope choice).
-/

namespace EpicService

/-! ## Data model (src/database/models.py) -/

/-- Embeds the `Product` ORM model: `sku` is the primary key, `qty_total` the stock,
`is_active` the soft-delete flag. -/
structure Product where
  sku : String
  name : String
  group : Option String
  department : Option String
  qty_total : ℚ
  price : ℚ
  months_inactive : ℤ
  is_active : Bool
deriving DecidableEq

/-- Embeds the `CartItem` ORM model (one claim line of a shopping list). -/
structure CartItem where
  product_sku : String
  quantity : ℚ
  surplus_quantity : ℚ
deriving DecidableEq

/-- Embeds the `ShoppingList` ORM model.  `status` is one of
`"active"`, `"abandoned"`, `"saved"`; `department_lock` is nullable. -/
structure ShoppingList where
  user_id : ℤ
  status : String
  department_lock : Option String
  items : List CartItem
deriving DecidableEq

/-- The catalog table, keyed by `sku` (primary key, hence unique). -/
def findProduct (products : List Product) (sku : String) : Option Product :=
  products.find? (fun p => p.sku = sku)

/-! ## CartService.add_item (src/services/cart.py, lines 36-92) -/

/-- Embeds `product.department or "000"`: Python `or` falls through to the
sentinel department on both `None` and the empty string. -/
def normDept (d : Option String) : String :=
  match d with
  | none => "000"
  | some s => if s = "" then "000" else s

/-- Result values of `add_item` (the `success` flag of the returned dict,
with the two failure messages distinguished). -/
inductive AddOutcome
  | ok
  | itemNotFound
  | departmentMismatch
deriving DecidableEq

/-- Embeds step 4 of `add_item`: the `CartItem` upsert.  The query
`scalar_one_or_none` on `(list_id, product_sku)` finds an existing claim row
(`add_item` keeps at most one per sku); its quantity is increased, otherwise a
new claim row with `surplus_quantity` at its column default `0.0` is inserted. -/
def addToFirst : List CartItem → String → ℚ → List CartItem
  | [], sku, qty => [⟨sku, qty, 0⟩]
  | it :: rest, sku, qty =>
    if it.product_sku = sku then { it with quantity := it.quantity + qty } :: rest
    else it :: addToFirst rest sku qty

/-- Embeds `CartService.add_item(user_id, sku, qty)` acting on the active
shopping list `sl` of the user against catalog `products`:
look the product up (fail `itemNotFound` when absent), establish the department
lock from the first claim, reject on department mismatch without touching the
claims, otherwise upsert the claim row. -/
def add_item (products : List Product) (sl : ShoppingList) (sku : String) (qty : ℚ) :
    AddOutcome × ShoppingList :=
  match findProduct products sku with
  | none => (.itemNotFound, sl)
  | some product =>
    let sl1 := if sl.department_lock = none
               then { sl with department_lock := some (normDept product.department) }
               else sl
    if sl1.department_lock ≠ some (normDept product.department) then
      (.departmentMismatch, sl1)
    else
      (.ok, { sl1 with items := addToFirst sl1.items sku qty })

/-! ## ExcelExporter.export_user_list (src/services/exporter.py, lines 57-154) -/

/-- One row of the generated main/surplus spreadsheet: the `"Артикул"` and
`"Кількість"` cells (name, price and the derived sum column carry no further
state and are omitted from the embedding). -/
structure ExportLine where
  sku : String
  quantity : ℚ
deriving DecidableEq

/-- The two files `export_user_list` may emit: the main file
(`{base}.xlsx`) and the surplus file (`НАДЛИШКИ_{base}.xlsx`). -/
inductive FileKind
  | main
  | surplus
deriving DecidableEq

/-- Writes a new `qty_total` for the product with the given primary key. -/
def updateProductQty (products : List Product) (sku : String) (newQty : ℚ) : List Product :=
  products.map (fun p => if p.sku = sku then { p with qty_total := newQty } else p)

/-- Embeds the per-item loop of `export_user_list` (lines 79-117): walk the
claims in order, threading the catalog.  Each step reads the current
`qty_total` of the claimed product, splits the claimed quantity into
`main_qty`/`surplus_qty`, decrements the stock when `main_qty > 0`, and —
only when `surplus_qty > 0` — persists the surplus and rewrites the claim
quantity.  A claim whose product is missing from the catalog makes
`item.product` a null relationship and the Python loop crash; this is the
`none` result. -/
def settleItems :
    List Product → List CartItem →
    Option (List Product × List CartItem × List ExportLine × List ExportLine)
  | products, [] => some (products, [], [], [])
  | products, item :: rest =>
    match findProduct products item.product_sku with
    | none => none
    | some product =>
      let qty_collected := item.quantity
      let qty_db := product.qty_total
      let main_qty := if qty_collected ≤ qty_db then qty_collected else qty_db
      let surplus_qty := if qty_collected ≤ qty_db then (0 : ℚ) else qty_collected - qty_db
      let products1 :=
        if main_qty > 0 then updateProductQty products item.product_sku (qty_db - main_qty)
        else products
      let mainLines : List ExportLine :=
        if main_qty > 0 then [⟨item.product_sku, main_qty⟩] else []
      let item1 :=
        if surplus_qty > 0 then
          { item with surplus_quantity := surplus_qty, quantity := main_qty }
        else item
      let surplusLines : List ExportLine :=
        if surplus_qty > 0 then [⟨item.product_sku, surplus_qty⟩] else []
      match settleItems products1 rest with
      | none => none
      | some (products2, items2, m2, s2) =>
        some (products2, item1 :: items2, mainLines ++ m2, surplusLines ++ s2)

/-- Embeds `ExcelExporter.export_user_list(list_id)`.  The database fetch of
the shopping list by id is abstracted into the `Option ShoppingList`
argument (`scalar_one_or_none`); the catalog is the `products` list.  The
result is the list of emitted files together with the new catalog and the
new shopping list state.  Note the source guards only on a missing or empty
list (line 71) — there is no check of `shop_list.status` — and, in the
non-empty case, unconditionally sets `status = 'saved'` (line 151). -/
def export_user_list (products : List Product) (sl : Option ShoppingList) :
    Option (List (FileKind × List ExportLine) × List Product × Option ShoppingList) :=
  match sl with
  | none => some ([], products, none)
  | some sl =>
    if sl.items = [] then some ([], products, some sl)
    else
      match settleItems products sl.items with
      | none => none
      | some (products2, items2, mainData, surplusData) =>
        let files :=
          (if mainData ≠ [] then [(FileKind.main, mainData)] else [])
          ++ (if surplusData ≠ [] then [(FileKind.surplus, surplusData)] else [])
        some (files, products2, some { sl with status := "saved", items := items2 })

/-- Stock of the product with the given sku (`0` when absent; the theorems
only use it at skus present in the catalog). -/
def stockOf (products : List Product) (sku : String) : ℚ :=
  ((findProduct products sku).map Product.qty_total).getD 0

/-- Quantity claimed for the given sku by the (unique) claim line carrying it
(`0` when no claim for it exists). -/
def claimQty (items : List CartItem) (sku : String) : ℚ :=
  ((items.find? (fun it => it.product_sku = sku)).map CartItem.quantity).getD 0

/-- Spec-side characterization (transcribed from the settlement claim, for
the refinement theorem): after settlement a product claimed by the session
has lost exactly `fulfilled = min(claimed, stock)` units of stock, an
unclaimed product is untouched. -/
def specSettledProduct (items : List CartItem) (p : Product) : Product :=
  if items.any (fun it => it.product_sku = p.sku) then
    { p with qty_total := p.qty_total - min (claimQty items p.sku) p.qty_total }
  else p

/-- Spec-side characterization (transcribed from the settlement claim):
after settlement a claim line holds `quantity = fulfilled` and
`surplus = claimed - fulfilled`, with
`fulfilled = min(claimed, stock before settlement)`. -/
def specSettledClaim (products : List Product) (c : CartItem) : CartItem :=
  { c with
    quantity := min c.quantity (stockOf products c.product_sku),
    surplus_quantity := c.quantity - min c.quantity (stockOf products c.product_sku) }

/-! ## String primitives for the importer (Python semantics on List Char)

Python string methods are embedded on `List Char`.  `str.lower` and the
`\w`-class of `re` are Unicode aware; here they are modelled on the ASCII and
Cyrillic ranges, which cover every synonym table entry and header the system
handles. -/

/-- Embeds Python `str.lower` per character, on ASCII and the Cyrillic
letters (А-Я, Ё, Є, І, Ї, Ґ) used by the synonym tables. -/
def pyLowerChar (c : Char) : Char :=
  if 'A' ≤ c ∧ c ≤ 'Z' then Char.ofNat (c.toNat + 32)
  else if 0x410 ≤ c.toNat ∧ c.toNat ≤ 0x42F then Char.ofNat (c.toNat + 32)
  else if c.toNat = 0x401 then Char.ofNat 0x451
  else if c.toNat = 0x404 then Char.ofNat 0x454
  else if c.toNat = 0x406 then Char.ofNat 0x456
  else if c.toNat = 0x407 then Char.ofNat 0x457
  else if c.toNat = 0x490 then Char.ofNat 0x491
  else c

/-- Whitespace stripped by Python `str.strip()` (ASCII whitespace and the
no-break space). -/
def isStripChar (c : Char) : Bool :=
  c = ' ' || c = '\t' || c = '\n' || c = '\r' ||
  c.toNat = 0x0B || c.toNat = 0x0C || c.toNat = 0xA0

/-- Embeds Python `str.strip()`. -/
def pyStrip (s : List Char) : List Char :=
  ((s.dropWhile isStripChar).reverse.dropWhile isStripChar).reverse

/-- Fuel-indexed recursion for `pyReplace`; one unit of fuel is spent per
consumed character, so `s.length` units always suffice (a match consumes the
whole non-empty pattern). -/
def pyReplaceFuel : ℕ → List Char → List Char → List Char → List Char
  | 0, s, _, _ => s
  | fuel + 1, s, pat, rep =>
    match s with
    | [] => []
    | c :: rest =>
      if pat ≠ [] ∧ s.take pat.length = pat then
        rep ++ pyReplaceFuel fuel (s.drop pat.length) pat rep
      else c :: pyReplaceFuel fuel rest pat rep

/-- Embeds Python `str.replace(pat, rep)` for a non-empty pattern (all
occurrences, left to right, non-overlapping). -/
def pyReplace (s pat rep : List Char) : List Char :=
  pyReplaceFuel s.length s pat rep

/-- Word characters of Python `re` (`\w`, Unicode mode), on the ASCII and
Cyrillic (0x400-0x4FF) ranges used by the data. -/
def isWordChar (c : Char) : Bool :=
  c.isAlphanum || c = '_' || (0x400 ≤ c.toNat && c.toNat ≤ 0x4FF)

/-- A `\b` boundary holds before a digit when the preceding character (if
any) is not a word character. -/
def boundaryBefore (prev : Option Char) : Bool :=
  match prev with
  | none => true
  | some c => ¬ isWordChar c

/-- The right `\b` boundary after the eight digits: end of string or a
non-word character. -/
def after8Ok (l : List Char) : Bool :=
  match l with
  | [] => true
  | d :: _ => ! isWordChar d

/-- Embeds `re.search(r'\b(\d{8})\b', s)`: leftmost run of exactly eight
digits delimited by word boundaries. -/
def scan8 : Option Char → List Char → Option (List Char)
  | _, [] => none
  | prev, c :: rest =>
    let l := c :: rest
    if boundaryBefore prev && (l.take 8).length == 8 && (l.take 8).all Char.isDigit
        && after8Ok (l.drop 8) then
      some (l.take 8)
    else scan8 (some c) rest

/-- The 8-digit sku search over a string. -/
def search8digits (s : String) : Option String :=
  (scan8 none s.toList).map List.asString

/-! ## SmartImporter: header detection (src/services/importer.py, lines 14-58) -/

/-- The built-in synonym table `DEFAULT_MAPPING`, in source order. -/
def DEFAULT_MAPPING : List (String × List String) :=
  [("sku", ["а", "арт", "артикул", "sku", "код", "code", "id", "item_no"]),
   ("name", ["н", "назва", "название", "name", "title", "description", "товар"]),
   ("qty_total", ["к", "кол", "кол-во", "кількість", "залишок", "qty", "quantity", "count"]),
   ("price", ["ц", "ціна", "цена", "price", "cost"]),
   ("total_sum", ["с", "сума", "сумма", "sum", "total", "вартість", "money"]),
   ("group", ["г", "гр", "група", "группа", "group", "category", "cat"]),
   ("department", ["в", "від", "відділ", "отдел", "dept", "department"]),
   ("months_inactive", ["м", "міс", "мес", "місяців", "months", "period"])]

/-- Embeds `SmartImporter._normalize_header`:
`str(header).lower().strip().split('(')[0].strip()`. -/
def normalize_header (h : String) : String :=
  (pyStrip ((pyStrip (h.toList.map pyLowerChar)).takeWhile (fun c => c ≠ '('))).asString

/-- Embeds `SmartImporter._detect_column`: exact lookup in the persisted
override map, then a scan of `DEFAULT_MAPPING` in order.  Both branches of
the scan test equality of the normalized header with a synonym — the second
(commented as partial matching in the source) compares with `==` and is
subsumed by the first. -/
def detect_column (h : String) (db_map : List (String × String)) : Option String :=
  let norm := normalize_header h
  match db_map.find? (fun m => m.1 = norm) with
  | some m => some m.2
  | none =>
    DEFAULT_MAPPING.findSome? (fun fs =>
      if norm ∈ fs.2 then some fs.1
      else if fs.2.any (fun syn => syn = norm) then some fs.1
      else none)

/-! ## SmartImporter: row normalization (src/services/importer.py, lines 100-167) -/

/-- A spreadsheet cell as `df.to_dict('records')` hands it to the row loop:
either NaN (an empty cell) or a value rendered by `str`.  Note Python
`float('nan')` is truthy and prints as `"nan"`. -/
inductive CellV
  | na
  | s (v : String)
deriving DecidableEq

/-- Python truthiness of a cell: NaN is truthy, a string is truthy when
non-empty. -/
def CellV.pyTruthy : CellV → Bool
  | .na => true
  | .s v => v ≠ ""

/-- Embeds `str(cell)`. -/
def CellV.pyStr : CellV → String
  | .na => "nan"
  | .s v => v

/-- A data row keyed by (renamed) column name; `getCell` is `row[k]` /
`k in row`. -/
def getCell (row : List (String × CellV)) (k : String) : Option CellV :=
  (row.find? (fun c => c.1 = k)).map Prod.snd

/-- Embeds `extract_sku` (lines 127-138): prefer a non-null explicit `sku`
cell (with every `".0"` occurrence removed and the result stripped, when
non-empty), otherwise hunt for an eight-digit run in the `name` cell. -/
def extract_sku (row : List (String × CellV)) : Option String :=
  let fromName : Option String :=
    match getCell row "name" with
    | some cv => search8digits cv.pyStr
    | none => none
  match getCell row "sku" with
  | some cv =>
    if cv ≠ .na then
      let val := (pyStrip (pyReplace cv.pyStr.toList ".0".toList [])).asString
      if val ≠ "" then some val else fromName
    else fromName
  | none => fromName

/-- Decimal number parser modelling Python `float(s)` on the plain decimal
forms (optional sign, integer digits, optional fractional part) the cleaned
cells take; other accepted spellings of `float` (exponents, `inf`, `nan`)
are outside the modelled inputs. `none` is the `ValueError` case. -/
def parseDecimal (s : List Char) : Option ℚ :=
  let (sign, l1) : ℚ × List Char :=
    match s with
    | '-' :: t => (-1, t)
    | '+' :: t => (1, t)
    | t => (1, t)
  let intPart := l1.takeWhile Char.isDigit
  let rest := l1.dropWhile Char.isDigit
  let digitsVal : List Char → ℕ := fun l => l.foldl (fun a c => a * 10 + (c.toNat - 48)) 0
  match rest with
  | [] => if intPart = [] then none else some (sign * digitsVal intPart)
  | '.' :: frac =>
    if frac.all Char.isDigit ∧ (intPart ≠ [] ∨ frac ≠ []) then
      some (sign * ((digitsVal intPart : ℚ) + (digitsVal frac : ℚ) / ((10 : ℚ) ^ frac.length)))
    else none
  | _ => none

/-- Embeds `clean_float` (lines 145-151): NaN and unparsable values become
`0.0`; commas become decimal points and spaces are removed first. -/
def clean_float (cv : CellV) : ℚ :=
  match cv with
  | .na => 0
  | .s v =>
    (parseDecimal (pyReplace (pyReplace v.toList ",".toList ".".toList) " ".toList [])).getD 0

/-- Embeds `int(q)` on a rational: truncation toward zero. -/
def ratTruncInt (q : ℚ) : ℤ :=
  q.num / (q.den : ℤ)

/-- The canonical record one data row normalizes to (the locals `sku`, `name`,
`group`, `dept`, `qty`, `price`, `months` of the sync loop, lines 181-193). -/
structure NormRow where
  final_sku : String
  name : String
  group : Option String
  department : Option String
  qty_total : ℚ
  price : ℚ
  months_inactive : ℤ
deriving DecidableEq

/-- Embeds `str(row.get(k, '')) if row.get(k) else None`: a missing key or a
falsy cell gives `None`, otherwise the cell rendered by `str` (a NaN cell is
truthy and renders as `"nan"`). -/
def optStrField (row : List (String × CellV)) (k : String) : Option String :=
  match getCell row k with
  | none => none
  | some cv => if cv.pyTruthy then some cv.pyStr else none

/-- Embeds the department cleanup `if dept and dept.endswith('.0'): dept = dept[:-2]`. -/
def stripDot0 (d : String) : String :=
  if d.endsWith ".0" then (d.toList.dropLast.dropLast).asString else d

/-- A numeric field after the conversion loop (lines 154-158): cleaned when
the column exists, filled with `0.0` otherwise. -/
def numField (cols1 : List String) (row : List (String × CellV)) (k : String) : ℚ :=
  if k ∈ cols1 then clean_float ((getCell row k).getD .na) else 0

/-- Builds the normalized record of one kept row: the name/group/department
extraction of the sync loop, the numeric conversions, and the price
derivation `total_sum / qty_total` used when no price column was detected
(lines 160-167). -/
def buildNormRow (priceDetected : Bool) (cols1 : List String)
    (row : List (String × CellV)) (sku : String) : NormRow :=
  let qty := numField cols1 row "qty_total"
  let sum := numField cols1 row "total_sum"
  { final_sku := sku
    name := ((getCell row "name").map CellV.pyStr).getD "No Name"
    group := optStrField row "group"
    department := (optStrField row "department").map stripDot0
    qty_total := qty
    price := if priceDetected then numField cols1 row "price"
             else if qty > 0 then sum / qty else 0
    months_inactive := ratTruncInt (numField cols1 row "months_inactive") }

/-! ## SmartImporter: catalog reconciliation (src/services/importer.py, lines 169-231) -/

/-- Embeds the UPDATE branch of the sync loop: overwrite name, stock, price,
inactivity metric, revive the item, and overwrite group/department only when
the row carries them. -/
def applyRowToProduct (r : NormRow) (p : Product) : Product :=
  { p with
    name := r.name
    qty_total := r.qty_total
    price := r.price
    months_inactive := r.months_inactive
    is_active := true
    group := match r.group with | some g => some g | none => p.group
    department := match r.department with | some d => some d | none => p.department }

/-- Embeds the INSERT branch of the sync loop. -/
def mkNewProduct (r : NormRow) : Product :=
  { sku := r.final_sku
    name := r.name
    group := r.group
    department := r.department
    qty_total := r.qty_total
    price := r.price
    months_inactive := r.months_inactive
    is_active := true }

/-- Embeds the UPDATE and INSERT pass (lines 181-219): walk the rows in
order; a row whose sku is a key of the `db_products` dict updates that
product in place, any other row is added to the session as a new product.
Updates never change a sku, so membership in the original dict equals
membership in the threaded catalog.  Returns the updated originals, the
inserted products in row order, and the `created`/`updated` counters. -/
def upsertPhase : List NormRow → List Product → List Product × List Product × ℕ × ℕ
  | [], db => (db, [], 0, 0)
  | r :: rest, db =>
    if db.any (fun p => p.sku = r.final_sku) then
      let res := upsertPhase rest
        (db.map (fun p => if p.sku = r.final_sku then applyRowToProduct r p else p))
      (res.1, res.2.1, res.2.2.1, res.2.2.2 + 1)
    else
      let res := upsertPhase rest db
      (res.1, mkNewProduct r :: res.2.1, res.2.2.1 + 1, res.2.2.2)

/-- Embeds the SOFT DELETE pass (lines 224-228): every product of the
original dict whose sku is not among the skus of the file and which is still
active is deactivated with its stock zeroed, and counted. -/
def deactivatePhase (db : List Product) (file_skus : List String) : List Product × ℕ :=
  (db.map (fun p =>
     if (! file_skus.contains p.sku) && p.is_active then
       { p with is_active := false, qty_total := 0 }
     else p),
   (db.filter (fun p => (! file_skus.contains p.sku) && p.is_active)).length)

/-- The catalog reconciliation (lines 169-231): the update/insert pass
followed by the deactivation pass; the resulting catalog is the mutated
original rows plus the inserted ones.  Returns
(catalog, created, updated, deactivated). -/
def reconcile (rows : List NormRow) (db : List Product) : List Product × ℕ × ℕ × ℕ :=
  let up := upsertPhase rows db
  let de := deactivatePhase up.1 (rows.map NormRow.final_sku)
  (de.1 ++ up.2.1, up.2.2.1, up.2.2.2, de.2)

/-- The `stats` dict of `run_import`.  `errors` is initialized to `0` on
line 118 and never assigned afterwards. -/
structure ImportStats where
  created : ℕ
  updated : ℕ
  deactivated : ℕ
  errors : ℕ
deriving DecidableEq

/-- Result of one import run: the statistics plus the catalog it commits. -/
structure ImportOutcome where
  stats : ImportStats
  catalog : List Product
deriving DecidableEq

instance : DecidableEq (Except String ImportOutcome) :=
  fun a b =>
    match a, b with
    | .ok x, .ok y => decidable_of_iff (x = y) (by simp)
    | .error x, .error y => decidable_of_iff (x = y) (by simp)
    | .ok _, .error _ => isFalse (by simp)
    | .error _, .ok _ => isFalse (by simp)

/-- The column rename `df.rename(columns=rename_map)`: a detected header is
replaced by its canonical field name, an undetected one is kept. -/
def renameKey (db_map : List (String × String)) (k : String) : String :=
  (detect_column k db_map).getD k

/-- Embeds `SmartImporter.run_import` on an already-parsed sheet: `cols` are
the (stripped) header strings and each row an association list over them.
Detected headers are renamed to field names; a sheet without a `name` column
raises `ValueError` (the `.error` case, line 124) before any row is
processed; rows without a name are dropped, `final_sku` extraction drops the
rows it fails on (without touching `stats`), the numeric/price normalization
runs, and the catalog is reconciled. -/
def run_import (db_map : List (String × String)) (db : List Product)
    (cols : List String) (rows : List (List (String × CellV))) :
    Except String ImportOutcome :=
  let cols1 := cols.map (renameKey db_map)
  let rows1 := rows.map (fun r => r.map (fun c => (renameKey db_map c.1, c.2)))
  if "name" ∈ cols1 then
    let rows2 := rows1.filter (fun r => getCell r "name" ≠ some .na)
    let withSku := rows2.filterMap (fun r => (extract_sku r).map (fun sku => (sku, r)))
    let priceDetected := cols.any (fun c => detect_column c db_map = some "price")
    let normRows := withSku.map (fun sr => buildNormRow priceDetected cols1 sr.2 sr.1)
    let rec1 := reconcile normRows db
    .ok ⟨⟨rec1.2.1, rec1.2.2.1, rec1.2.2.2, 0⟩, rec1.1⟩
  else
    .error "У файлі немає колонки з Назвою товару!"

/-! ## Theorems -/

/-- C10: settling a session that has no claim lines is a no-op at the public
interface: `export_user_list` returns no files and leaves the session (its
status, department lock and claims) and the whole catalog unchanged; in
particular the session is not marked `saved`. -/
theorem settle_empty_session_noop (products : List Product) (sl : ShoppingList)
    (h : sl.items = []) :
    export_user_list products (some sl) = some ([], products, some sl) := by
  simp [export_user_list, h]

/-- Witness for `settle_empty_session_noop` at a concrete empty active session. -/
theorem settle_empty_session_noop_witness :
    (⟨7, "active", none, []⟩ : ShoppingList).items = [] ∧
    export_user_list [] (some ⟨7, "active", none, []⟩) =
      some ([], [], some ⟨7, "active", none, []⟩) :=
  ⟨rfl, settle_empty_session_noop [] ⟨7, "active", none, []⟩ rfl⟩

/-- C9 (evaluation): `_detect_column` resolves only exact synonym matches —
the normalized header `"залишок на складі"`, which strictly contains the
synonym `"залишок"`, does not resolve at all, although the exact header
`"залишок"` resolves to `qty_total`.  The partial-match branch of the source
compares with `==` and can never fire on a proper superstring, contradicting
its own comment. -/
theorem detect_column_no_substring_match :
    detect_column "залишок на складі" [] = none ∧
    detect_column "залишок" [] = some "qty_total" := by
  decide

/-- C7 (counterexample): an import whose only header resolves to the
identifier field still hard-fails, because the guard tests for a resolved
name column, not for an identifier-capable column. -/
theorem run_import_fatal_despite_sku_column :
    detect_column "артикул" [] = some "sku" ∧
    run_import [] [] ["артикул"] [] = .error "У файлі немає колонки з Назвою товару!" := by
  decide

/-- C7 (amended): `run_import` raises its fatal error before processing any
row exactly when no header resolves to the `name` field; whether an
identifier column is resolved is irrelevant to this guard. -/
theorem run_import_fatal_iff_no_name_column (db_map : List (String × String))
    (db : List Product) (cols : List String) (rows : List (List (String × CellV))) :
    (∃ e, run_import db_map db cols rows = .error e) ↔
      "name" ∉ cols.map (renameKey db_map) := by
  by_cases h : "name" ∈ cols.map (renameKey db_map) <;>
    simp [run_import, h]

/-- C6 (counterexample): a row from which no identifier can be established
is dropped without aborting the import, but it is not counted — the errors
field of the result is `0`, not `1`. -/
theorem run_import_drops_row_without_counting :
    extract_sku [("name", CellV.s "щось без коду")] = none ∧
    run_import [] [] ["Назва"] [[("Назва", CellV.s "щось без коду")]] =
      .ok ⟨⟨0, 0, 0, 0⟩, []⟩ := by
  decide

/-- C6 (amended): rows lacking an identifier are dropped without aborting
the import, but they are never counted: the errors field of every
successful `run_import` result is `0`. -/
theorem run_import_errors_always_zero (db_map : List (String × String))
    (db : List Product) (cols : List String) (rows : List (List (String × CellV)))
    (o : ImportOutcome) (h : run_import db_map db cols rows = .ok o) :
    o.stats.errors = 0 := by
  by_cases hn : "name" ∈ cols.map (renameKey db_map)
  · simp only [run_import, hn, if_pos] at h
    obtain ⟨rfl⟩ := h
    rfl
  · simp [run_import, hn] at h

/-- Witness for `run_import_errors_always_zero` at a concrete import. -/
theorem run_import_errors_always_zero_witness :
    run_import [] [] ["Назва"] [[("Назва", CellV.s "70009999 - Tea")]] =
      .ok ⟨⟨1, 0, 0, 0⟩,
        [{ sku := "70009999", name := "70009999 - Tea", group := none, department := none,
           qty_total := 0, price := 0, months_inactive := 0, is_active := true }]⟩ ∧
    (⟨⟨1, 0, 0, 0⟩,
      [{ sku := "70009999", name := "70009999 - Tea", group := none, department := none,
         qty_total := 0, price := 0, months_inactive := 0, is_active := true }]⟩ :
        ImportOutcome).stats.errors = 0 :=
  ⟨by decide, run_import_errors_always_zero [] [] ["Назва"]
    [[("Назва", CellV.s "70009999 - Tea")]] _ (by decide)⟩

/-- C8 (counterexample): for the combined-column row `"70123456 - Coffee"`
with no explicit identifier column, the stored display name is the whole
combined string, not the `"Coffee"` remainder the claim states. -/
theorem import_combined_name_kept_whole :
    run_import [] [] ["Назва"] [[("Назва", CellV.s "70123456 - Coffee")]] =
      .ok ⟨⟨1, 0, 0, 0⟩,
        [{ sku := "70123456", name := "70123456 - Coffee", group := none, department := none,
           qty_total := 0, price := 0, months_inactive := 0, is_active := true }]⟩ ∧
    "70123456 - Coffee" ≠ "Coffee" := by
  decide

/-- C8 (amended): normalization of the row `"70123456 - Coffee"` with no
explicit identifier column extracts the identifier `"70123456"` (the
embedded eight-digit run), and the stored display name is the full combined
string `"70123456 - Coffee"` — no remainder is split off. -/
theorem import_combined_name_result :
    extract_sku [("name", CellV.s "70123456 - Coffee")] = some "70123456" ∧
    run_import [] [] ["Назва"] [[("Назва", CellV.s "70123456 - Coffee")]] =
      .ok ⟨⟨1, 0, 0, 0⟩,
        [{ sku := "70123456", name := "70123456 - Coffee", group := none, department := none,
           qty_total := 0, price := 0, months_inactive := 0, is_active := true }]⟩ := by
  decide

/-- The upsert appends a fresh claim when no claim of the session carries
the sku. -/
theorem addToFirst_of_not_mem (items : List CartItem) (sku : String) (qty : ℚ)
    (h : ∀ it ∈ items, it.product_sku ≠ sku) :
    addToFirst items sku qty = items ++ [⟨sku, qty, 0⟩] := by
  induction items with
  | nil => rfl
  | cons it rest ih =>
    have h1 : it.product_sku ≠ sku := h it (by simp)
    simp only [addToFirst, if_neg h1, List.cons_append, List.cons.injEq, true_and]
    exact ih (fun j hj => h j (by simp [hj]))

/-- The upsert bumps the unique existing claim carrying the sku and leaves
every other claim unchanged. -/
theorem addToFirst_of_mem (items : List CartItem) (sku : String) (qty : ℚ)
    (hnd : (items.map CartItem.product_sku).Nodup)
    (h : ∃ it ∈ items, it.product_sku = sku) :
    addToFirst items sku qty =
      items.map (fun j =>
        if j.product_sku = sku then { j with quantity := j.quantity + qty } else j) := by
  induction items with
  | nil => simp at h
  | cons it rest ih =>
    simp only [List.map_cons, List.nodup_cons] at hnd
    by_cases h1 : it.product_sku = sku
    · have hrest : ∀ j ∈ rest, j.product_sku ≠ sku := by
        intro j hj
        intro hj2
        exact hnd.1 (h1 ▸ hj2 ▸ List.mem_map_of_mem CartItem.product_sku hj)
      have : rest.map (fun j =>
          if j.product_sku = sku then { j with quantity := j.quantity + qty } else j) = rest := by
        rw [List.map_congr_left (g := id) (fun j hj => by simp [hrest j hj])]
        exact List.map_id rest
      simp [addToFirst, h1, this]
    · obtain ⟨j, hj, hjsku⟩ := h
      rcases List.mem_cons.mp hj with rfl | hjrest
      · exact absurd hjsku h1
      · simp [addToFirst, h1, ih hnd.2 ⟨j, hjrest, hjsku⟩]

/-- C4: for every existing catalog item and every delta, `add_item` on a
session whose department lock matches the item (or is still unset) succeeds
and upserts the claim: an existing claim for the item gains the delta, an
absent one is created with exactly the delta.  No bound involving
`qty_total` (or any other session) appears: the hypotheses and the result
are independent of every stock value. -/
theorem add_item_upsert (products : List Product) (sl : ShoppingList) (sku : String)
    (qty : ℚ) (p : Product)
    (hfind : findProduct products sku = some p)
    (hlock : sl.department_lock = none ∨ sl.department_lock = some (normDept p.department))
    (hnd : (sl.items.map CartItem.product_sku).Nodup) :
    (add_item products sl sku qty).1 = .ok ∧
    ((∀ it ∈ sl.items, it.product_sku ≠ sku) →
        (add_item products sl sku qty).2.items = sl.items ++ [⟨sku, qty, 0⟩]) ∧
    ((∃ it ∈ sl.items, it.product_sku = sku) →
        (add_item products sl sku qty).2.items =
          sl.items.map (fun j =>
            if j.product_sku = sku then { j with quantity := j.quantity + qty } else j)) := by
  have hrun : add_item products sl sku qty =
      (.ok, { sl with department_lock := some (normDept p.department),
                      items := addToFirst sl.items sku qty }) := by
    rcases hlock with hl | hl
    · simp [add_item, hfind, hl]
    · simp [add_item, hfind, hl]
  refine ⟨by simp [hrun], fun hno => ?_, fun hyes => ?_⟩
  · simp [hrun, addToFirst_of_not_mem sl.items sku qty hno]
  · simp [hrun, addToFirst_of_mem sl.items sku qty hnd hyes]

/-- Witness for `add_item_upsert`: a first claim of 4 units against an item
whose stock is only 3 (over-claim) succeeds on a fresh session. -/
theorem add_item_upsert_witness :
    findProduct [⟨"70000001", "A", none, some "15", 3, 2, 0, true⟩] "70000001" =
      some ⟨"70000001", "A", none, some "15", 3, 2, 0, true⟩ ∧
    (add_item [⟨"70000001", "A", none, some "15", 3, 2, 0, true⟩]
        ⟨9, "active", none, []⟩ "70000001" 4).1 = .ok ∧
    (add_item [⟨"70000001", "A", none, some "15", 3, 2, 0, true⟩]
        ⟨9, "active", none, []⟩ "70000001" 4).2.items = [] ++ [⟨"70000001", 4, 0⟩] :=
  ⟨by decide,
   (add_item_upsert _ ⟨9, "active", none, []⟩ "70000001" 4
      ⟨"70000001", "A", none, some "15", 3, 2, 0, true⟩ (by decide)
      (Or.inl rfl) (by decide)).1,
   (add_item_upsert _ ⟨9, "active", none, []⟩ "70000001" 4
      ⟨"70000001", "A", none, some "15", 3, 2, 0, true⟩ (by decide)
      (Or.inl rfl) (by decide)).2.1 (by simp)⟩

/-- C5: a session with no department lock accepts its first claim of any
department, and that claim fixes the lock to the department of the item
(with the `"000"` sentinel standing in for a missing or blank department);
once the lock is set, `add_item` for an item of a different department
returns the mismatch outcome and leaves the whole session — lock, claims
and their quantities — exactly as it was. -/
theorem add_item_department_lock (products : List Product) (sl : ShoppingList)
    (sku : String) (qty : ℚ) (p : Product)
    (hfind : findProduct products sku = some p) :
    (sl.department_lock = none →
       (add_item products sl sku qty).1 = .ok ∧
       (add_item products sl sku qty).2.department_lock = some (normDept p.department)) ∧
    (∀ L, sl.department_lock = some L → L ≠ normDept p.department →
       add_item products sl sku qty = (.departmentMismatch, sl)) := by
  constructor
  · intro hl
    simp [add_item, hfind, hl]
  · intro L hl hne
    simp [add_item, hfind, hl, hne]

/-- Witness for `add_item_department_lock`: a session locked to department
`"15"` rejects an item of department `"22"` unchanged, while a fresh session
accepts it and locks to `"22"`. -/
theorem add_item_department_lock_witness :
    findProduct [⟨"70000002", "B", none, some "22", 10, 1, 0, true⟩] "70000002" =
      some ⟨"70000002", "B", none, some "22", 10, 1, 0, true⟩ ∧
    ((⟨9, "active", none, []⟩ : ShoppingList).department_lock = none →
       (add_item [⟨"70000002", "B", none, some "22", 10, 1, 0, true⟩]
          ⟨9, "active", none, []⟩ "70000002" 1).1 = .ok ∧
       (add_item [⟨"70000002", "B", none, some "22", 10, 1, 0, true⟩]
          ⟨9, "active", none, []⟩ "70000002" 1).2.department_lock = some "22") ∧
    add_item [⟨"70000002", "B", none, some "22", 10, 1, 0, true⟩]
        ⟨9, "active", some "15", [⟨"70000009", 2, 0⟩]⟩ "70000002" 1 =
      (.departmentMismatch, ⟨9, "active", some "15", [⟨"70000009", 2, 0⟩]⟩) :=
  ⟨by decide,
   (add_item_department_lock _ ⟨9, "active", none, []⟩ "70000002" 1
      ⟨"70000002", "B", none, some "22", 10, 1, 0, true⟩ (by decide)).1,
   (add_item_department_lock _ ⟨9, "active", some "15", [⟨"70000009", 2, 0⟩]⟩
      "70000002" 1 ⟨"70000002", "B", none, some "22", 10, 1, 0, true⟩
      (by decide)).2 "15" rfl (by decide)⟩

/-- Updating a stock value never changes the sku column. -/
theorem updateProductQty_map_sku (products : List Product) (k : String) (v : ℚ) :
    (updateProductQty products k v).map Product.sku = products.map Product.sku := by
  simp only [updateProductQty, List.map_map]
  apply List.map_congr_left
  intro p _
  by_cases h : p.sku = k <;> simp [h]

/-- One step of catalog lookup. -/
theorem findProduct_cons (p : Product) (rest : List Product) (x : String) :
    findProduct (p :: rest) x = if p.sku = x then some p else findProduct rest x := by
  by_cases h : p.sku = x
  · simp [findProduct, List.find?_cons_of_pos, h]
  · simp [findProduct, List.find?_cons_of_neg, h]

/-- A product is found exactly when its sku occurs in the catalog. -/
theorem findProduct_isSome_iff (products : List Product) (sku : String) :
    (findProduct products sku).isSome ↔ sku ∈ products.map Product.sku := by
  induction products with
  | nil => simp [findProduct]
  | cons p rest ih =>
    rw [findProduct_cons]
    by_cases h : p.sku = sku
    · simp [h]
    · simp [h, ih, Ne.symm h]

/-- Looking up a different sku is unaffected by a stock update. -/
theorem findProduct_update_ne (products : List Product) (k : String) (v : ℚ)
    (x : String) (h : x ≠ k) :
    findProduct (updateProductQty products k v) x = findProduct products x := by
  induction products with
  | nil => rfl
  | cons p rest ih =>
    have hcons : updateProductQty (p :: rest) k v =
        (if p.sku = k then { p with qty_total := v } else p) :: updateProductQty rest k v := rfl
    rw [hcons, findProduct_cons, findProduct_cons, ih]
    by_cases hp : p.sku = k
    · have hhead : ¬ p.sku = x := by
        intro hx
        apply h
        rw [← hx, hp]
      simp [hp, hhead, Ne.symm h]
    · simp [hp]

/-- In a catalog with pairwise-distinct skus, lookup of a member by its own
sku returns that member. -/
theorem findProduct_eq_of_mem_nodup (products : List Product) (p : Product)
    (hnd : (products.map Product.sku).Nodup) (hp : p ∈ products) :
    findProduct products p.sku = some p := by
  induction products with
  | nil => simp at hp
  | cons q rest ih =>
    simp only [List.map_cons, List.nodup_cons] at hnd
    rw [findProduct_cons]
    rcases List.mem_cons.mp hp with rfl | hprest
    · simp
    · have hne : ¬ q.sku = p.sku := fun he =>
        hnd.1 (he ▸ List.mem_map_of_mem Product.sku hprest)
      rw [if_neg hne]
      exact ih hnd.2 hprest

/-- The claim quantity at the sku of the head claim. -/
theorem claimQty_cons_self (c : CartItem) (rest : List CartItem) :
    claimQty (c :: rest) c.product_sku = c.quantity := by
  simp [claimQty, List.find?]

/-- The claim quantity at any other sku skips the head claim. -/
theorem claimQty_cons_ne (c : CartItem) (rest : List CartItem) (x : String)
    (h : ¬ c.product_sku = x) :
    claimQty (c :: rest) x = claimQty rest x := by
  simp [claimQty, List.find?, h]

/-- A product no claim line targets is not settled. -/
theorem specSettledProduct_not_claimed (items : List CartItem) (p : Product)
    (h : items.any (fun it => it.product_sku = p.sku) = false) :
    specSettledProduct items p = p := by
  simp [specSettledProduct, h]

/-- Settling against the head claim of the list. -/
theorem specSettledProduct_head (c : CartItem) (rest : List CartItem) (p : Product)
    (hsku : p.sku = c.product_sku) :
    specSettledProduct (c :: rest) p =
      { p with qty_total := p.qty_total - min c.quantity p.qty_total } := by
  have hany : (c :: rest).any (fun it => it.product_sku = p.sku) = true := by
    simp [hsku]
  have hqty : claimQty (c :: rest) p.sku = c.quantity := by
    rw [hsku, claimQty_cons_self]
  rw [specSettledProduct, hany, if_pos rfl, hqty]

/-- A head claim of a different sku does not affect the settled product. -/
theorem specSettledProduct_cons_ne (c : CartItem) (rest : List CartItem) (p : Product)
    (hsku : ¬ c.product_sku = p.sku) :
    specSettledProduct (c :: rest) p = specSettledProduct rest p := by
  rw [specSettledProduct, specSettledProduct, claimQty_cons_ne c rest p.sku hsku]
  simp [hsku]

/-- The settled claim only depends on the stock its own sku resolves to. -/
theorem specSettledClaim_congr (products1 products : List Product) (c : CartItem)
    (h : findProduct products1 c.product_sku = findProduct products c.product_sku) :
    specSettledClaim products1 c = specSettledClaim products c := by
  rw [specSettledClaim, specSettledClaim, stockOf, stockOf, h]

/-- The catalog after the head step of the settlement loop, expressed as one
map over the original catalog: the touched product loses
`min claimed stock`, untouched products stay (whether or not the
`main_qty > 0` write fires). -/
theorem settle_products1_eq (products : List Product) (c : CartItem) (P : Product)
    (hndP : (products.map Product.sku).Nodup)
    (hP : findProduct products c.product_sku = some P)
    (hq0 : 0 ≤ c.quantity) (hs0 : 0 ≤ P.qty_total)
    (main : ℚ) (hmain : main = min c.quantity P.qty_total) :
    (if 0 < main then updateProductQty products c.product_sku (P.qty_total - main)
     else products) =
      products.map (fun p =>
        if p.sku = c.product_sku then
          { p with qty_total := p.qty_total - min c.quantity p.qty_total }
        else p) := by
  subst hmain
  by_cases hpos : 0 < min c.quantity P.qty_total
  · rw [if_pos hpos]
    unfold updateProductQty
    apply List.map_congr_left
    intro p hp
    by_cases hsku : p.sku = c.product_sku
    · have h1 := findProduct_eq_of_mem_nodup products p hndP hp
      rw [hsku, hP] at h1
      have hpP : p = P := (Option.some_inj.mp h1).symm
      rw [if_pos hsku, if_pos hsku, hpP]
    · rw [if_neg hsku, if_neg hsku]
  · rw [if_neg hpos]
    have hmin0 : min c.quantity P.qty_total = 0 :=
      le_antisymm (not_lt.mp hpos) (le_min hq0 hs0)
    symm
    nth_rewrite 2 [← List.map_id products]
    apply List.map_congr_left
    intro p hp
    by_cases hsku : p.sku = c.product_sku
    · have h1 := findProduct_eq_of_mem_nodup products p hndP hp
      rw [hsku, hP] at h1
      have hpP : p = P := (Option.some_inj.mp h1).symm
      have hm : min c.quantity p.qty_total = 0 := by rw [hpP]; exact hmin0
      rw [if_pos hsku, hm, sub_zero]
      rfl
    · rw [if_neg hsku]
      rfl

/-- Folding the head step into the settled-catalog formula: settling the
remaining claims against the already-decremented catalog equals settling all
claims against the original catalog, provided the head sku does not recur. -/
theorem settle_products_step (products : List Product) (c : CartItem)
    (rest : List CartItem)
    (hrest : c.product_sku ∉ rest.map CartItem.product_sku) :
    (products.map (fun p =>
        if p.sku = c.product_sku then
          { p with qty_total := p.qty_total - min c.quantity p.qty_total }
        else p)).map (specSettledProduct rest) =
      products.map (specSettledProduct (c :: rest)) := by
  rw [List.map_map]
  apply List.map_congr_left
  intro p _
  simp only [Function.comp_apply]
  by_cases hsku : p.sku = c.product_sku
  · rw [if_pos hsku]
    have hany : rest.any (fun it =>
        it.product_sku = ({ p with qty_total := p.qty_total - min c.quantity p.qty_total } :
          Product).sku) = false := by
      rw [List.any_eq_false]
      intro it hit
      simp only [decide_eq_true_eq]
      intro he
      apply hrest
      rw [← hsku, ← he]
      exact List.mem_map_of_mem CartItem.product_sku hit
    rw [specSettledProduct_not_claimed _ _ hany, specSettledProduct_head c rest p hsku]
  · rw [if_neg hsku, specSettledProduct_cons_ne c rest p (fun he => hsku he.symm)]

/-- The settlement loop, fully characterized: under the session invariants
(pairwise-distinct claim skus with all products present, fresh claims with
zero surplus and non-negative quantities, non-negative stock) it succeeds
and realizes the spec-side settled catalog and settled claim list. -/
theorem settleItems_spec (items : List CartItem) :
    ∀ products : List Product,
      (items.map CartItem.product_sku).Nodup →
      (products.map Product.sku).Nodup →
      (∀ it ∈ items, (findProduct products it.product_sku).isSome) →
      (∀ it ∈ items, it.surplus_quantity = 0) →
      (∀ it ∈ items, 0 ≤ it.quantity) →
      (∀ p ∈ products, 0 ≤ p.qty_total) →
      ∃ m s, settleItems products items =
        some (products.map (specSettledProduct items),
              items.map (specSettledClaim products), m, s) := by
  induction items with
  | nil =>
    intro products _ _ _ _ _ _
    refine ⟨[], [], ?_⟩
    have h1 : products.map (specSettledProduct []) = products := by
      rw [List.map_congr_left (g := id)
        (fun p _ => specSettledProduct_not_claimed [] p (by simp))]
      exact List.map_id products
    rw [h1]
    simp [settleItems]
  | cons c rest ih =>
    intro products hndI hndP hfound hsurp hqnn hstock
    obtain ⟨P, hP⟩ := Option.isSome_iff_exists.mp (hfound c (List.mem_cons_self c rest))
    have hPmem : P ∈ products := List.mem_of_find?_eq_some hP
    have hq0 : 0 ≤ c.quantity := hqnn c (List.mem_cons_self c rest)
    have hs0 : 0 ≤ P.qty_total := hstock P hPmem
    have hsurpc : c.surplus_quantity = 0 := hsurp c (List.mem_cons_self c rest)
    simp only [List.map_cons, List.nodup_cons] at hndI
    obtain ⟨hrest, hndrest⟩ := hndI
    have hstockc : stockOf products c.product_sku = P.qty_total := by
      rw [stockOf, hP]
      rfl
    -- facts about the catalog after the head step, for any written value
    have hup_sku : ∀ v : ℚ,
        (updateProductQty products c.product_sku v).map Product.sku =
          products.map Product.sku := fun v =>
      updateProductQty_map_sku products c.product_sku v
    have hup_stock : ∀ v : ℚ, 0 ≤ v →
        ∀ p ∈ updateProductQty products c.product_sku v, 0 ≤ p.qty_total := by
      intro v hv p hp
      obtain ⟨p0, hp0, rfl⟩ := List.mem_map.mp hp
      by_cases hsk : p0.sku = c.product_sku
      · rw [if_pos hsk]
        exact hv
      · rw [if_neg hsk]
        exact hstock p0 hp0
    rcases le_or_lt c.quantity P.qty_total with hle | hgt
    · -- the claim fits in stock: main_qty = claimed quantity, no surplus
      have hmin : min c.quantity P.qty_total = c.quantity := min_eq_left hle
      have hstep : settleItems products (c :: rest) =
          match settleItems
              (if 0 < c.quantity then
                 updateProductQty products c.product_sku (P.qty_total - c.quantity)
               else products) rest with
          | none => none
          | some (p2, i2, m2, s2) =>
            some (p2, c :: i2,
                  (if 0 < c.quantity then [⟨c.product_sku, c.quantity⟩] else []) ++ m2, s2) := by
        simp only [settleItems, hP, if_pos hle, gt_iff_lt, lt_self_iff_false, if_false,
                   List.nil_append]
      set products1 : List Product :=
        if 0 < c.quantity then
          updateProductQty products c.product_sku (P.qty_total - c.quantity)
        else products with hp1def
      have hfind1 : ∀ x, x ≠ c.product_sku → findProduct products1 x = findProduct products x := by
        intro x hx
        rw [hp1def]
        split
        · exact findProduct_update_ne products _ _ x hx
        · rfl
      have hsku1 : products1.map Product.sku = products.map Product.sku := by
        rw [hp1def]
        split
        · exact hup_sku _
        · rfl
      have hnd1 : (products1.map Product.sku).Nodup := by
        rw [hsku1]
        exact hndP
      have hfound1 : ∀ it ∈ rest, (findProduct products1 it.product_sku).isSome := by
        intro it hit
        rw [findProduct_isSome_iff, hsku1, ← findProduct_isSome_iff]
        exact hfound it (List.mem_cons_of_mem c hit)
      have hstock1 : ∀ p ∈ products1, 0 ≤ p.qty_total := by
        rw [hp1def]
        split
        · exact hup_stock _ (by linarith)
        · exact hstock
      obtain ⟨m, s, hrec⟩ := ih products1 hndrest hnd1 hfound1
        (fun it hit => hsurp it (List.mem_cons_of_mem c hit))
        (fun it hit => hqnn it (List.mem_cons_of_mem c hit)) hstock1
      refine ⟨(if 0 < c.quantity then [⟨c.product_sku, c.quantity⟩] else []) ++ m, s, ?_⟩
      rw [hstep, hrec]
      dsimp only
      have hprod : products1.map (specSettledProduct rest) =
          products.map (specSettledProduct (c :: rest)) := by
        rw [hp1def, settle_products1_eq products c P hndP hP hq0 hs0 c.quantity hmin.symm]
        exact settle_products_step products c rest hrest
      have hitems : c :: rest.map (specSettledClaim products1) =
          (c :: rest).map (specSettledClaim products) := by
        rw [List.map_cons]
        congr 1
        · rw [specSettledClaim, hstockc, hmin, sub_self, ← hsurpc]
        · apply List.map_congr_left
          intro c2 h2
          apply specSettledClaim_congr
          apply hfind1
          intro he
          exact hrest (he ▸ List.mem_map_of_mem CartItem.product_sku h2)
      rw [hprod, hitems]
    · -- over-claim: main_qty = stock, surplus persisted and quantity rewritten
      have hmin : min c.quantity P.qty_total = P.qty_total := min_eq_right (le_of_lt hgt)
      have hnle : ¬ c.quantity ≤ P.qty_total := not_le.mpr hgt
      have hsurpos : 0 < c.quantity - P.qty_total := sub_pos.mpr hgt
      have hstep : settleItems products (c :: rest) =
          match settleItems
              (if 0 < P.qty_total then
                 updateProductQty products c.product_sku (P.qty_total - P.qty_total)
               else products) rest with
          | none => none
          | some (p2, i2, m2, s2) =>
            some (p2,
                  { c with surplus_quantity := c.quantity - P.qty_total,
                           quantity := P.qty_total } :: i2,
                  (if 0 < P.qty_total then [⟨c.product_sku, P.qty_total⟩] else []) ++ m2,
                  ⟨c.product_sku, c.quantity - P.qty_total⟩ :: s2) := by
        simp only [settleItems, hP, if_neg hnle, gt_iff_lt, if_pos hsurpos,
                   List.singleton_append]
      set products1 : List Product :=
        if 0 < P.qty_total then
          updateProductQty products c.product_sku (P.qty_total - P.qty_total)
        else products with hp1def
      have hfind1 : ∀ x, x ≠ c.product_sku → findProduct products1 x = findProduct products x := by
        intro x hx
        rw [hp1def]
        split
        · exact findProduct_update_ne products _ _ x hx
        · rfl
      have hsku1 : products1.map Product.sku = products.map Product.sku := by
        rw [hp1def]
        split
        · exact hup_sku _
        · rfl
      have hnd1 : (products1.map Product.sku).Nodup := by
        rw [hsku1]
        exact hndP
      have hfound1 : ∀ it ∈ rest, (findProduct products1 it.product_sku).isSome := by
        intro it hit
        rw [findProduct_isSome_iff, hsku1, ← findProduct_isSome_iff]
        exact hfound it (List.mem_cons_of_mem c hit)
      have hstock1 : ∀ p ∈ products1, 0 ≤ p.qty_total := by
        rw [hp1def]
        split
        · exact hup_stock _ (by linarith)
        · exact hstock
      obtain ⟨m, s, hrec⟩ := ih products1 hndrest hnd1 hfound1
        (fun it hit => hsurp it (List.mem_cons_of_mem c hit))
        (fun it hit => hqnn it (List.mem_cons_of_mem c hit)) hstock1
      refine ⟨(if 0 < P.qty_total then [⟨c.product_sku, P.qty_total⟩] else []) ++ m,
              ⟨c.product_sku, c.quantity - P.qty_total⟩ :: s, ?_⟩
      rw [hstep, hrec]
      dsimp only
      have hprod : products1.map (specSettledProduct rest) =
          products.map (specSettledProduct (c :: rest)) := by
        rw [hp1def, settle_products1_eq products c P hndP hP hq0 hs0 P.qty_total hmin.symm]
        exact settle_products_step products c rest hrest
      have hitems : ({ c with surplus_quantity := c.quantity - P.qty_total, quantity := P.qty_total } : CartItem) ::
            rest.map (specSettledClaim products1) =
          (c :: rest).map (specSettledClaim products) := by
        rw [List.map_cons]
        congr 1
        · rw [specSettledClaim, hstockc, hmin]
        · apply List.map_congr_left
          intro c2 h2
          apply specSettledClaim_congr
          apply hfind1
          intro he
          exact hrest (he ▸ List.mem_map_of_mem CartItem.product_sku h2)
      rw [hprod, hitems]

/-- C2: settling an active session computes, for each claim,
`fulfilled = min(claimed, current stock)`, persists
`surplus = claimed - fulfilled` (zero when the claim fits), rewrites the
claim quantity to `fulfilled`, decrements each claimed product by exactly
its fulfilled amount, and marks the session `saved`.  The hypotheses are the
session/catalog invariants maintained by the rest of the system: distinct
claim skus resolving to catalog products, fresh claims (zero surplus,
non-negative quantities) and non-negative stock. -/
theorem settle_active_session (products : List Product) (sl : ShoppingList)
    (hact : sl.status = "active") (hne : sl.items ≠ [])
    (hndI : (sl.items.map CartItem.product_sku).Nodup)
    (hndP : (products.map Product.sku).Nodup)
    (hfound : ∀ it ∈ sl.items, (findProduct products it.product_sku).isSome)
    (hsurp : ∀ it ∈ sl.items, it.surplus_quantity = 0)
    (hqnn : ∀ it ∈ sl.items, 0 ≤ it.quantity)
    (hstock : ∀ p ∈ products, 0 ≤ p.qty_total) :
    ∃ files, export_user_list products (some sl) =
      some (files, products.map (specSettledProduct sl.items),
            some { sl with
                   status := "saved",
                   items := sl.items.map (specSettledClaim products) }) := by
  obtain ⟨m, s, hrec⟩ :=
    settleItems_spec sl.items products hndI hndP hfound hsurp hqnn hstock
  refine ⟨(if m ≠ [] then [(FileKind.main, m)] else [])
          ++ (if s ≠ [] then [(FileKind.surplus, s)] else []), ?_⟩
  simp only [export_user_list, if_neg hne, hrec]

/-- Witness for `settle_active_session` at the over-claim example of the
spec: stock 10, a single claim of 12; settlement yields fulfilled 10,
surplus 2 and stock 0. -/
theorem settle_active_session_witness :
    ∃ files,
      export_user_list [⟨"70000001", "A", none, none, 10, 1, 0, true⟩]
          (some ⟨1, "active", some "000", [⟨"70000001", 12, 0⟩]⟩) =
        some (files, [⟨"70000001", "A", none, none, 0, 1, 0, true⟩],
              some ⟨1, "saved", some "000", [⟨"70000001", 10, 2⟩]⟩) := by
  obtain ⟨files, heq⟩ := settle_active_session
    [⟨"70000001", "A", none, none, 10, 1, 0, true⟩]
    ⟨1, "active", some "000", [⟨"70000001", 12, 0⟩]⟩
    rfl (by decide) (by decide) (by decide) (by decide) (by decide) (by decide) (by decide)
  refine ⟨files, ?_⟩
  rw [heq]
  norm_num [specSettledProduct, specSettledClaim, claimQty, stockOf, findProduct, List.find?]

/-- C1 (evaluation): `export_user_list` performs no status check.  Invoked
on a session whose status is already `saved` (with one claim of 5 and
remaining stock 5), it runs the whole settlement again: it emits a main
file and decrements the remaining stock from 5 to 0 instead of rejecting
the call before any mutation. -/
theorem settle_saved_session_mutates :
    export_user_list [⟨"70000001", "A", none, none, 5, 1, 0, true⟩]
        (some ⟨1, "saved", some "000", [⟨"70000001", 5, 0⟩]⟩) =
      some ([(FileKind.main, [⟨"70000001", 5⟩])],
            [⟨"70000001", "A", none, none, 0, 1, 0, true⟩],
            some ⟨1, "saved", some "000", [⟨"70000001", 5, 0⟩]⟩) ∧
    stockOf [⟨"70000001", "A", none, none, 0, 1, 0, true⟩] "70000001" ≠
      stockOf [⟨"70000001", "A", none, none, 5, 1, 0, true⟩] "70000001" := by
  constructor
  · norm_num [export_user_list, settleItems, findProduct, List.find?, updateProductQty]
  · decide

/-- The update branch preserves the sku (primary key) of the row it
overwrites. -/
theorem applyRowToProduct_sku (r : NormRow) (p : Product) :
    (applyRowToProduct r p).sku = p.sku := rfl

/-- In a file with pairwise-distinct identifiers, searching for the
identifier of a member row finds that row. -/
theorem findRow_self (rows : List NormRow) (r : NormRow)
    (hnd : (rows.map NormRow.final_sku).Nodup) (hr : r ∈ rows) :
    rows.find? (fun r2 => r2.final_sku = r.final_sku) = some r := by
  induction rows with
  | nil => simp at hr
  | cons r0 rest ih =>
    simp only [List.map_cons, List.nodup_cons] at hnd
    rcases List.mem_cons.mp hr with rfl | hrrest
    · rw [List.find?_cons_of_pos]
      simp
    · have hne : ¬ r0.final_sku = r.final_sku := fun he =>
        hnd.1 (he ▸ List.mem_map_of_mem NormRow.final_sku hrrest)
      rw [List.find?_cons_of_neg _ (by simpa using hne)]
      exact ih hnd.2 hrrest

/-- The update/insert pass, closed form of the mutated originals: each
original product is overwritten by the unique file row carrying its sku,
or kept as is. -/
theorem upsertPhase_db_eq (rows : List NormRow) : ∀ db : List Product,
    (rows.map NormRow.final_sku).Nodup →
    (upsertPhase rows db).1 =
      db.map (fun p =>
        match rows.find? (fun r => r.final_sku = p.sku) with
        | some r => applyRowToProduct r p
        | none => p) := by
  induction rows with
  | nil =>
    intro db _
    simp only [upsertPhase, List.find?]
    nth_rewrite 1 [← List.map_id db]
    apply List.map_congr_left
    intro p _
    rfl
  | cons r rest ih =>
    intro db hnd
    simp only [List.map_cons, List.nodup_cons] at hnd
    obtain ⟨hhead, hndrest⟩ := hnd
    by_cases hany : db.any (fun p => p.sku = r.final_sku) = true
    · rw [show (upsertPhase (r :: rest) db).1 =
          (upsertPhase rest
            (db.map (fun p =>
              if p.sku = r.final_sku then applyRowToProduct r p else p))).1 by
        simp [upsertPhase, hany]]
      rw [ih _ hndrest, List.map_map]
      apply List.map_congr_left
      intro p _
      simp only [Function.comp_apply]
      by_cases hsku : p.sku = r.final_sku
      · rw [if_pos hsku]
        have hnone : rest.find? (fun r2 =>
            r2.final_sku = (applyRowToProduct r p).sku) = none := by
          rw [List.find?_eq_none]
          intro r2 h2
          simp only [applyRowToProduct_sku, decide_eq_true_eq]
          intro he
          apply hhead
          have hrr : r.final_sku = r2.final_sku := by rw [he, hsku]
          rw [hrr]
          exact List.mem_map_of_mem NormRow.final_sku h2
        rw [hnone]
        have hfind : (r :: rest).find? (fun r2 => r2.final_sku = p.sku) = some r := by
          rw [List.find?_cons_of_pos]
          simp [hsku]
        rw [hfind]
      · rw [if_neg hsku]
        have hfind : (r :: rest).find? (fun r2 => r2.final_sku = p.sku) =
            rest.find? (fun r2 => r2.final_sku = p.sku) := by
          rw [List.find?_cons_of_neg]
          simp only [decide_eq_true_eq]
          intro he
          exact hsku he.symm
        rw [hfind]
    · rw [show (upsertPhase (r :: rest) db).1 = (upsertPhase rest db).1 by
        simp [upsertPhase, hany]]
      rw [ih _ hndrest]
      apply List.map_congr_left
      intro p hp
      have hne : ¬ r.final_sku = p.sku := by
        intro he
        apply hany
        rw [List.any_eq_true]
        exact ⟨p, hp, by simp [he]⟩
      rw [List.find?_cons_of_neg _ (by simpa using hne)]

/-- A file row whose sku is absent from the catalog contributes its inserted
product to the session. -/
theorem upsertPhase_news_mem (rows : List NormRow) : ∀ db : List Product,
    ∀ r ∈ rows, r.final_sku ∉ db.map Product.sku →
      mkNewProduct r ∈ (upsertPhase rows db).2.1 := by
  induction rows with
  | nil =>
    intro db r hr
    simp at hr
  | cons r0 rest ih =>
    intro db r hr hnew
    by_cases hany : db.any (fun p => p.sku = r0.final_sku) = true
    · have hstep : (upsertPhase (r0 :: rest) db).2.1 =
          (upsertPhase rest
            (db.map (fun p =>
              if p.sku = r0.final_sku then applyRowToProduct r0 p else p))).2.1 := by
        simp [upsertPhase, hany]
      rcases List.mem_cons.mp hr with rfl | hrrest
      · exfalso
        rw [List.any_eq_true] at hany
        obtain ⟨p, hp, hps⟩ := hany
        simp only [decide_eq_true_eq] at hps
        exact hnew (hps ▸ List.mem_map_of_mem Product.sku hp)
      · rw [hstep]
        apply ih _ r hrrest
        intro hmem
        apply hnew
        rw [List.mem_map] at hmem ⊢
        obtain ⟨p, hp, hps⟩ := hmem
        obtain ⟨p0, hp0, rfl⟩ := List.mem_map.mp hp
        refine ⟨p0, hp0, ?_⟩
        by_cases hsk : p0.sku = r0.final_sku
        · rw [if_pos hsk] at hps
          rw [applyRowToProduct_sku] at hps
          exact hps
        · rw [if_neg hsk] at hps
          exact hps
    · have hstep : (upsertPhase (r0 :: rest) db).2.1 =
          mkNewProduct r0 :: (upsertPhase rest db).2.1 := by
        simp [upsertPhase, hany]
      rcases List.mem_cons.mp hr with rfl | hrrest
      · rw [hstep]
        exact List.mem_cons_self _ _
      · rw [hstep]
        exact List.mem_cons_of_mem _ (ih db r hrrest hnew)

/-- Filtering the image of a map has the length of filtering by the
composed predicate. -/
theorem length_filter_map_fun {α β : Type} (f : α → β) (p : β → Bool) (l : List α) :
    ((l.map f).filter p).length = (l.filter (fun a => p (f a))).length := by
  induction l with
  | nil => rfl
  | cons a t ih =>
    by_cases h : p (f a) = true <;> simp [h, ih]

/-- C3: after reconciling one import (with pairwise-distinct identifiers in
the file), every previously-active catalog item whose identifier is absent
from the file ends inactive with stock forced to zero; every identifier
present in the file ends active in the catalog with the file row values for
name, quantity and price (existing rows overwritten, new ones inserted);
and the deactivated count equals the number of previously-active items
absent from the file. -/
theorem reconcile_spec (rows : List NormRow) (db : List Product)
    (hndR : (rows.map NormRow.final_sku).Nodup) :
    (∀ p ∈ db, p.is_active = true → p.sku ∉ rows.map NormRow.final_sku →
       ({ p with is_active := false, qty_total := 0 } : Product) ∈ (reconcile rows db).1) ∧
    (∀ r ∈ rows, ∃ q ∈ (reconcile rows db).1,
       q.sku = r.final_sku ∧ q.is_active = true ∧ q.name = r.name ∧
       q.qty_total = r.qty_total ∧ q.price = r.price) ∧
    (reconcile rows db).2.2.2 =
      (db.filter (fun p =>
        (! (rows.map NormRow.final_sku).contains p.sku) && p.is_active)).length := by
  have hdb1 := upsertPhase_db_eq rows db hndR
  set g : Product → Product := fun p =>
    match rows.find? (fun r => r.final_sku = p.sku) with
    | some r => applyRowToProduct r p
    | none => p with hg
  set dfun : Product → Product := fun p =>
    if (! (rows.map NormRow.final_sku).contains p.sku) && p.is_active then
      { p with is_active := false, qty_total := 0 }
    else p with hdfun
  set dpred : Product → Bool := fun p =>
    (! (rows.map NormRow.final_sku).contains p.sku) && p.is_active with hdpred
  have hcat : (reconcile rows db).1 =
      ((upsertPhase rows db).1.map dfun) ++ (upsertPhase rows db).2.1 := rfl
  have hdeact : (reconcile rows db).2.2.2 =
      ((upsertPhase rows db).1.filter dpred).length := rfl
  have hg_sku : ∀ p : Product, (g p).sku = p.sku := by
    intro p
    rw [hg]
    cases h : rows.find? (fun r => r.final_sku = p.sku) <;>
      simp [h, applyRowToProduct_sku]
  have hg_id : ∀ p : Product, p.sku ∉ rows.map NormRow.final_sku → g p = p := by
    intro p hnot
    have hnone : rows.find? (fun r => r.final_sku = p.sku) = none := by
      rw [List.find?_eq_none]
      intro r hr
      simp only [decide_eq_true_eq]
      intro he
      exact hnot (he ▸ List.mem_map_of_mem NormRow.final_sku hr)
    rw [hg]
    simp [hnone]
  refine ⟨?_, ?_, ?_⟩
  · -- absent previously-active items are deactivated with stock zeroed
    intro p hp hact hnot
    have hcont : (rows.map NormRow.final_sku).contains p.sku = false := by
      simpa using hnot
    have himg : dfun (g p) = { p with is_active := false, qty_total := 0 } := by
      rw [hg_id p hnot, hdfun]
      have hcond : ((! (rows.map NormRow.final_sku).contains p.sku) && p.is_active) = true := by
        rw [hcont, hact]
        decide
      exact if_pos hcond
    rw [hcat, hdb1]
    apply List.mem_append_left
    rw [← himg]
    exact List.mem_map_of_mem dfun (List.mem_map_of_mem g hp)
  · -- every file row ends up active with the file values
    intro r hr
    have hrsku : r.final_sku ∈ rows.map NormRow.final_sku :=
      List.mem_map_of_mem NormRow.final_sku hr
    by_cases hmem : r.final_sku ∈ db.map Product.sku
    · obtain ⟨p, hp, hps⟩ := List.mem_map.mp hmem
      have hgp : g p = applyRowToProduct r p := by
        have hfind : rows.find? (fun r2 => r2.final_sku = p.sku) = some r := by
          rw [hps]
          exact findRow_self rows r hndR hr
        rw [hg]
        simp [hfind]
      have hcont : (rows.map NormRow.final_sku).contains (applyRowToProduct r p).sku
          = true := by
        rw [applyRowToProduct_sku, hps]
        simpa using hrsku
      have himg : dfun (g p) = applyRowToProduct r p := by
        rw [hgp, hdfun]
        have hcond : ¬ (((! (rows.map NormRow.final_sku).contains
            (applyRowToProduct r p).sku) && (applyRowToProduct r p).is_active) = true) := by
          rw [hcont]
          simp
        exact if_neg hcond
      refine ⟨applyRowToProduct r p, ?_, ?_⟩
      · rw [hcat, hdb1]
        apply List.mem_append_left
        rw [← himg]
        exact List.mem_map_of_mem dfun (List.mem_map_of_mem g hp)
      · refine ⟨by rw [applyRowToProduct_sku, hps], rfl, rfl, rfl, rfl⟩
    · refine ⟨mkNewProduct r, ?_, rfl, rfl, rfl, rfl, rfl⟩
      rw [hcat]
      exact List.mem_append_right _ (upsertPhase_news_mem rows db r hr hmem)
  · -- the deactivated count
    rw [hdeact, hdb1, length_filter_map_fun]
    congr 1
    apply List.filter_congr
    intro p hp
    by_cases hmem : p.sku ∈ rows.map NormRow.final_sku
    · have hcont : (rows.map NormRow.final_sku).contains p.sku = true := by
        simpa using hmem
      have hcontg : (rows.map NormRow.final_sku).contains (g p).sku = true := by
        rw [hg_sku]
        exact hcont
      rw [hdpred]
      show ((! (rows.map NormRow.final_sku).contains (g p).sku) && (g p).is_active) =
           ((! (rows.map NormRow.final_sku).contains p.sku) && p.is_active)
      rw [hcontg, hcont]
      simp
    · rw [hg_id p hmem]

/-- Witness for `reconcile_spec` at the completeness example of the spec:
catalog {A, B, C} all active, import containing only {A, B}; afterwards C
is inactive with stock 0, A and B carry the file values, and exactly one
item is counted as deactivated. -/
theorem reconcile_spec_witness :
    (([⟨"70000001", "A new", none, none, 7, 2, 0⟩,
       ⟨"70000002", "B new", none, none, 8, 3, 0⟩] :
        List NormRow).map NormRow.final_sku).Nodup ∧
    ((∀ p ∈ ([⟨"70000001", "A", none, none, 5, 1, 0, true⟩,
              ⟨"70000002", "B", none, none, 6, 1, 0, true⟩,
              ⟨"70000003", "C", none, none, 9, 1, 0, true⟩] : List Product),
        p.is_active = true →
        p.sku ∉ ([⟨"70000001", "A new", none, none, 7, 2, 0⟩,
                  ⟨"70000002", "B new", none, none, 8, 3, 0⟩] :
                   List NormRow).map NormRow.final_sku →
        ({ p with is_active := false, qty_total := 0 } : Product) ∈
          (reconcile
            [⟨"70000001", "A new", none, none, 7, 2, 0⟩,
             ⟨"70000002", "B new", none, none, 8, 3, 0⟩]
            [⟨"70000001", "A", none, none, 5, 1, 0, true⟩,
             ⟨"70000002", "B", none, none, 6, 1, 0, true⟩,
             ⟨"70000003", "C", none, none, 9, 1, 0, true⟩]).1) ∧
     (∀ r ∈ ([⟨"70000001", "A new", none, none, 7, 2, 0⟩,
              ⟨"70000002", "B new", none, none, 8, 3, 0⟩] : List NormRow),
        ∃ q ∈ (reconcile
            [⟨"70000001", "A new", none, none, 7, 2, 0⟩,
             ⟨"70000002", "B new", none, none, 8, 3, 0⟩]
            [⟨"70000001", "A", none, none, 5, 1, 0, true⟩,
             ⟨"70000002", "B", none, none, 6, 1, 0, true⟩,
             ⟨"70000003", "C", none, none, 9, 1, 0, true⟩]).1,
          q.sku = r.final_sku ∧ q.is_active = true ∧ q.name = r.name ∧
          q.qty_total = r.qty_total ∧ q.price = r.price) ∧
     (reconcile
        [⟨"70000001", "A new", none, none, 7, 2, 0⟩,
         ⟨"70000002", "B new", none, none, 8, 3, 0⟩]
        [⟨"70000001", "A", none, none, 5, 1, 0, true⟩,
         ⟨"70000002", "B", none, none, 6, 1, 0, true⟩,
         ⟨"70000003", "C", none, none, 9, 1, 0, true⟩]).2.2.2 =
      (([⟨"70000001", "A", none, none, 5, 1, 0, true⟩,
         ⟨"70000002", "B", none, none, 6, 1, 0, true⟩,
         ⟨"70000003", "C", none, none, 9, 1, 0, true⟩] : List Product).filter
        (fun p =>
          (! (([⟨"70000001", "A new", none, none, 7, 2, 0⟩,
                ⟨"70000002", "B new", none, none, 8, 3, 0⟩] :
                 List NormRow).map NormRow.final_sku).contains p.sku) &&
          p.is_active)).length) :=
  ⟨by decide,
   reconcile_spec
     [⟨"70000001", "A new", none, none, 7, 2, 0⟩,
      ⟨"70000002", "B new", none, none, 8, 3, 0⟩]
     [⟨"70000001", "A", none, none, 5, 1, 0, true⟩,
      ⟨"70000002", "B", none, none, 6, 1, 0, true⟩,
      ⟨"70000003", "C", none, none, 9, 1, 0, true⟩]
     (by decide)⟩

end EpicService
